import Mathlib

/-!
# Verification of the Mesh Generation Engine (`src/services/geometryEngine.ts`)

This file gives a shallow embedding, in Lean 4, of the geometry engine of the
repository: the worker-side mesh pipeline (shape preparation, extrusion,
organic morphing), the caller-side dispatcher (`requestGeometry`, the
worker `onmessage` handler, the timeout handler), the bounded geometry cache
(a JavaScript `Map` with insertion-order eviction), the LOD generator, and
the synchronous proxy fallback.

Conventions of the embedding:
* JavaScript numbers are modelled as exact rationals (`ℚ`) wherever the code
  performs only field operations; quantities that genuinely involve
  transcendental functions (the organic morph pass, which calls `Math.sin`)
  are modelled over the reals (`ℝ`).
* The square-root based comparison `start.distanceTo(end) > 0.001` is
  modelled by the exactly equivalent squared comparison on rationals.
* `geometry.rotateX(-Math.PI / 2)` is modelled by its exact effect on
  coordinates, the map `(x, y, z) ↦ (x, z, -y)`.
* JavaScript `Map`s are modelled as insertion-ordered association lists:
  `set` overwrites in place or appends, `delete` removes the entry,
  iteration order (`keys().next().value`) is list order.
* Heap identity of `THREE.BufferGeometry` objects is modelled by a store
  `ℕ → BufferContent` together with a bump allocator (`nextAddr`); `clone()`
  allocates a fresh address holding the same content.
* Promises returned by `requestGeometry` are tracked per correlation id in a
  `promises` map: `pending`, `resolvedAddr a`, or `rejectedMsg m`.
-/

namespace GeometryEngine

/- Batteries marks the kernel implementations of rational arithmetic
irreducible, which blocks `decide`-style evaluation of the exact rational
pipeline below; restore the default reducibility locally so concrete
geometry computations can be checked by the kernel. -/
attribute [local semireducible] Rat.mul Rat.add Rat.sub Rat.inv

/-! ## Insertion-ordered map model (JavaScript `Map`) -/

/-- Lookup in an insertion-ordered association list: the value of the first
entry whose key matches, as JavaScript `Map.get`. -/
def mapGet {β : Type} (c : List (String × β)) (k : String) : Option β :=
  match c with
  | [] => none
  | e :: rest => if e.1 = k then some e.2 else mapGet rest k

/-- JavaScript `Map.set`: overwrite the existing entry in place, otherwise
append at the end (insertion order is preserved). -/
def mapSet {β : Type} (c : List (String × β)) (k : String) (v : β) : List (String × β) :=
  match c with
  | [] => [(k, v)]
  | e :: rest => if e.1 = k then (k, v) :: rest else e :: mapSet rest k v

/-- JavaScript `Map.delete`: remove the entry with the given key. -/
def mapDelete {β : Type} (c : List (String × β)) (k : String) : List (String × β) :=
  match c with
  | [] => []
  | e :: rest => if e.1 = k then rest else e :: mapDelete rest k

/-- Keys of the map, in insertion order (JavaScript `Map.keys()`). -/
def keysOf {β : Type} (c : List (String × β)) : List String :=
  c.map Prod.fst

theorem mapGet_mapSet_self {β : Type} (c : List (String × β)) (k : String) (v : β) :
    mapGet (mapSet c k v) k = some v := by
  induction c with
  | nil => simp [mapSet, mapGet]
  | cons e rest ih =>
    by_cases h : e.1 = k
    · simp [mapSet, mapGet, h]
    · simp [mapSet, mapGet, h, ih]

theorem mapGet_mapSet_ne {β : Type} (c : List (String × β)) (k k' : String) (v : β)
    (h : k' ≠ k) : mapGet (mapSet c k v) k' = mapGet c k' := by
  induction c with
  | nil => simp [mapSet, mapGet, Ne.symm h]
  | cons e rest ih =>
    by_cases he : e.1 = k
    · rw [mapSet, if_pos he, mapGet, if_neg (Ne.symm h), mapGet, if_neg (he ▸ Ne.symm h)]
    · by_cases he' : e.1 = k'
      · rw [mapSet, if_neg he, mapGet, if_pos he', mapGet, if_pos he']
      · rw [mapSet, if_neg he, mapGet, if_neg he', mapGet, if_neg he', ih]

theorem mapGet_mapDelete_ne {β : Type} (c : List (String × β)) (k k' : String)
    (h : k' ≠ k) : mapGet (mapDelete c k) k' = mapGet c k' := by
  induction c with
  | nil => simp [mapDelete, mapGet]
  | cons e rest ih =>
    by_cases he : e.1 = k
    · rw [mapDelete, if_pos he, mapGet, if_neg (he ▸ Ne.symm h)]
    · by_cases he' : e.1 = k'
      · rw [mapDelete, if_neg he, mapGet, if_pos he', mapGet, if_pos he']
      · rw [mapDelete, if_neg he, mapGet, if_neg he', mapGet, if_neg he', ih]

theorem mapGet_eq_none_of_not_mem {β : Type} (c : List (String × β)) (k : String)
    (h : k ∉ keysOf c) : mapGet c k = none := by
  induction c with
  | nil => simp [mapGet]
  | cons e rest ih =>
    simp only [keysOf, List.map_cons, List.mem_cons, not_or] at h
    have he : ¬ e.1 = k := fun hh => h.1 hh.symm
    rw [mapGet, if_neg he]
    exact ih (by simpa [keysOf] using h.2)

theorem mapGet_mapDelete_mapSet_self {β : Type} (c : List (String × β)) (k : String) (v : β)
    (h : k ∉ keysOf c) : mapGet (mapDelete (mapSet c k v) k) k = none := by
  induction c with
  | nil => simp [mapSet, mapDelete, mapGet]
  | cons e rest ih =>
    simp only [keysOf, List.map_cons, List.mem_cons, not_or] at h
    have he : ¬ e.1 = k := fun hh => h.1 hh.symm
    rw [mapSet, if_neg he, mapDelete, if_neg he, mapGet, if_neg he]
    exact ih (by simpa [keysOf] using h.2)

theorem mapSet_eq_append {β : Type} (c : List (String × β)) (k : String) (v : β)
    (h : k ∉ keysOf c) : mapSet c k v = c ++ [(k, v)] := by
  induction c with
  | nil => simp [mapSet]
  | cons e rest ih =>
    simp only [keysOf, List.map_cons, List.mem_cons, not_or] at h
    have he : ¬ e.1 = k := fun hh => h.1 hh.symm
    rw [mapSet, if_neg he, ih (by simpa [keysOf] using h.2)]
    simp

theorem keysOf_map_pair (v : String → ℕ) (l : List String) :
    keysOf (l.map (fun k => (k, v k))) = l := by
  induction l with
  | nil => rfl
  | cons a t ih =>
    simp only [keysOf, List.map_cons, List.map_map] at ih ⊢
    rw [ih]

theorem mapGet_map_pair (v : String → ℕ) (ks : List String) (k : String) (h : k ∈ ks) :
    mapGet (ks.map (fun k0 => (k0, v k0))) k = some (v k) := by
  induction ks with
  | nil => cases h
  | cons a rest ih =>
    by_cases ha : a = k
    · simp [mapGet, ha]
    · have hmem : k ∈ rest := by
        rcases List.mem_cons.mp h with h1 | h1
        · exact absurd h1.symm ha
        · exact h1
      simp [mapGet, ha, ih hmem]

/-! ## Geometry cache (source lines 199–240) -/

/-- Cache size bound (`private maxCacheSize = 100`, line 201). -/
def maxCacheSize : ℕ := 100

/-- Source lines 233–240, `manageCacheSize`: if the cache size exceeds the
bound, dispose and delete the first-inserted entry (`keys().next().value`,
which in an insertion-ordered map is the head of the list). -/
def manageCacheSize (c : List (String × ℕ)) : List (String × ℕ) :=
  if maxCacheSize < c.length then
    match c.head? with
    | some e => mapDelete c e.1
    | none => c
  else c

/-- One cache population step as performed by the success callback of
`requestGeometry` (lines 289–294): `set` followed by `manageCacheSize`. -/
def cacheInsert (c : List (String × ℕ)) (k : String) (a : ℕ) : List (String × ℕ) :=
  manageCacheSize (mapSet c k a)

/-- Folding `cacheInsert` over a list of (fingerprint, address) pairs. -/
def insertAll (c : List (String × ℕ)) (kvs : List (String × ℕ)) : List (String × ℕ) :=
  kvs.foldl (fun acc kv => cacheInsert acc kv.1 kv.2) c

theorem manageCacheSize_eq_self (c : List (String × ℕ)) (h : c.length ≤ maxCacheSize) :
    manageCacheSize c = c := by
  simp [manageCacheSize, Nat.not_lt.mpr h]

theorem manageCacheSize_eq_tail (c : List (String × ℕ)) (h : c.length = maxCacheSize + 1) :
    manageCacheSize c = c.tail := by
  match c with
  | [] => simp [maxCacheSize] at h
  | e :: rest =>
    simp only [manageCacheSize, List.head?_cons]
    rw [if_pos (by omega)]
    simp [mapDelete]

/-- With enough room, a run of inserts with fresh, pairwise-distinct keys is a
plain append: no entry is evicted. -/
theorem insertAll_no_evict : ∀ (kvs : List (String × ℕ)) (c : List (String × ℕ)),
    (∀ p ∈ kvs, p.1 ∉ keysOf c) → (keysOf kvs).Nodup →
    c.length + kvs.length ≤ maxCacheSize →
    insertAll c kvs = c ++ kvs := by
  intro kvs
  induction kvs with
  | nil => intro c _ _ _; simp [insertAll]
  | cons kv rest ih =>
    intro c hfresh hnd hlen
    have hlen' : c.length + rest.length + 1 ≤ maxCacheSize := by
      rw [List.length_cons] at hlen; omega
    have hkv : kv.1 ∉ keysOf c := hfresh kv (List.mem_cons_self kv rest)
    have hstep : cacheInsert c kv.1 kv.2 = c ++ [kv] := by
      rw [cacheInsert, mapSet_eq_append c kv.1 kv.2 hkv]
      exact manageCacheSize_eq_self _ (by simp; omega)
    have hnodup : kv.1 ∉ keysOf rest ∧ (keysOf rest).Nodup := by
      have h0 : (kv.1 :: keysOf rest).Nodup := by simpa [keysOf] using hnd
      exact ⟨(List.nodup_cons.mp h0).1, (List.nodup_cons.mp h0).2⟩
    have hfresh' : ∀ p ∈ rest, p.1 ∉ keysOf (c ++ [kv]) := by
      intro p hp
      simp only [keysOf, List.map_append, List.mem_append, List.map_cons, List.map_nil,
        List.mem_singleton, not_or]
      refine ⟨hfresh p (List.mem_cons_of_mem kv hp), ?_⟩
      intro hcontra
      exact hnodup.1 (hcontra ▸ List.mem_map_of_mem Prod.fst hp)
    have hrw : insertAll c (kv :: rest) = insertAll (c ++ [kv]) rest := by
      simp [insertAll, hstep]
    rw [hrw, ih (c ++ [kv]) hfresh' hnodup.2 (by simp; omega)]
    simp

/-- C6: inserting 101 distinct fingerprints into the geometry cache bounded at
100 entries evicts exactly the first-inserted entry (insertion-order eviction;
lookups are pure `Map.get` calls and play no role in eviction): afterwards the
cache is exactly the last 100 insertions in order, holds 100 entries, a get on
the evicted fingerprint returns nothing, and every other inserted fingerprint
still hits. -/
theorem c6_cache_eviction_insertion_order (ks : List String) (v : String → ℕ)
    (hnd : ks.Nodup) (hlen : ks.length = 101) :
    insertAll [] (ks.map (fun k => (k, v k))) = ks.tail.map (fun k => (k, v k)) ∧
    (insertAll [] (ks.map (fun k => (k, v k)))).length = 100 ∧
    (∀ k0, ks.head? = some k0 →
      mapGet (insertAll [] (ks.map (fun k => (k, v k)))) k0 = none) ∧
    (∀ k ∈ ks.tail, mapGet (insertAll [] (ks.map (fun k => (k, v k)))) k = some (v k)) := by
  have hne : ks ≠ [] := by intro h; rw [h] at hlen; simp at hlen
  have hdecomp : ks.dropLast ++ [ks.getLast hne] = ks := List.dropLast_append_getLast hne
  have hnd2 : (ks.dropLast ++ [ks.getLast hne]).Nodup := by rw [hdecomp]; exact hnd
  obtain ⟨hndA, _, hdisj⟩ := List.nodup_append.mp hnd2
  have hlast_nmem : ks.getLast hne ∉ ks.dropLast := by
    intro hmem
    exact hdisj hmem (List.mem_singleton_self _)
  have hlenA : ks.dropLast.length = 100 := by rw [List.length_dropLast, hlen]
  have hkeysA : keysOf (ks.dropLast.map (fun k => (k, v k))) = ks.dropLast :=
    keysOf_map_pair v ks.dropLast
  have hA : insertAll [] (ks.dropLast.map (fun k => (k, v k))) =
      ks.dropLast.map (fun k => (k, v k)) := by
    have := insertAll_no_evict (ks.dropLast.map (fun k => (k, v k))) []
      (by intro p _; simp [keysOf])
      (by rw [hkeysA]; exact hndA)
      (by simp only [List.length_nil, List.length_map, hlenA, maxCacheSize]; omega)
    simpa using this
  have hAne : ks.dropLast.map (fun k => (k, v k)) ≠ [] := by
    apply List.ne_nil_of_length_pos
    rw [List.length_map, hlenA]; omega
  have hmain : insertAll [] (ks.map (fun k => (k, v k))) =
      ks.tail.map (fun k => (k, v k)) := by
    have h1 : ks.map (fun k => (k, v k)) =
        ks.dropLast.map (fun k => (k, v k)) ++ [(ks.getLast hne, v (ks.getLast hne))] := by
      conv_lhs => rw [← hdecomp]
      simp
    rw [h1, insertAll, List.foldl_append]
    show insertAll (insertAll [] (ks.dropLast.map (fun k => (k, v k))))
      [(ks.getLast hne, v (ks.getLast hne))] = _
    rw [hA]
    have h2 : insertAll (ks.dropLast.map (fun k => (k, v k)))
        [(ks.getLast hne, v (ks.getLast hne))] =
        manageCacheSize (ks.dropLast.map (fun k => (k, v k)) ++
          [(ks.getLast hne, v (ks.getLast hne))]) := by
      rw [insertAll, List.foldl_cons, List.foldl_nil, cacheInsert,
        mapSet_eq_append _ _ _ (by rw [hkeysA]; exact hlast_nmem)]
    rw [h2, manageCacheSize_eq_tail _
      (by simp [maxCacheSize]; omega),
      List.tail_append_of_ne_nil hAne, List.map_tail]
    have h3 : (ks.dropLast ++ [ks.getLast hne]).tail = ks.dropLast.tail ++ [ks.getLast hne] :=
      List.tail_append_of_ne_nil (List.ne_nil_of_length_pos (by omega))
    rw [← List.map_tail, ← List.map_singleton (fun k => (k, v k)) (ks.getLast hne),
      ← List.map_append, ← h3, hdecomp]
    exact List.map_tail _ _
  refine ⟨hmain, ?_, ?_, ?_⟩
  · rw [hmain, List.length_map, List.length_tail, hlen]
  · intro k0 hk0
    rw [hmain]
    match ks, hlen, hnd, hk0 with
    | a :: t, _, hnd, hk0 =>
      have ha : k0 = a := by simpa using hk0.symm
      subst ha
      apply mapGet_eq_none_of_not_mem
      have : k0 ∉ t := (List.nodup_cons.mp hnd).1
      simpa [keysOf, List.map_map] using this
  · intro k hk
    rw [hmain]
    exact mapGet_map_pair v ks.tail k hk

/-- Witness for C6 at 101 concrete pairwise-distinct fingerprints. -/
theorem c6_cache_eviction_insertion_order_witness :
    ((List.range 101).map (fun n => "fp" ++ toString n)).Nodup ∧
    (∀ k ∈ ((List.range 101).map (fun n => "fp" ++ toString n)).tail,
      mapGet (insertAll []
        (((List.range 101).map (fun n => "fp" ++ toString n)).map (fun k => (k, 7)))) k =
        some 7) :=
  ⟨by decide,
   (c6_cache_eviction_insertion_order ((List.range 101).map (fun n => "fp" ++ toString n))
      (fun _ => 7) (by decide) (by decide)).2.2.2⟩

/-! ## Request records

The `props` objects handed to `requestGeometry` (and spread into the worker
message, lines 299–304) carry the element id, the element kind (`type`), the
footprint points, the form style, height, elevation, scale factor and the 2D
origin offset (`offset.x` / `offset.z`). -/

/-- The ElementSpec-derived payload of a geometry request. -/
structure Props where
  id : String
  ty : String
  points : List (ℚ × ℚ)
  form : String
  height : ℚ
  elevation : ℚ
  scaleFactor : ℚ
  offsetX : ℚ
  offsetZ : ℚ
deriving DecidableEq

/-! ## Worker-side shape preparation (worker script lines 78–123) -/

/-- Point type of the solid pipeline: exact rational 3D coordinates. -/
abbrev V3 : Type := ℚ × ℚ × ℚ

/-- Source lines 88–92: scale, offset and flip of the secondary axis,
`new THREE.Vector2((p[0]*scaleFactor) - offset.x, -((p[1]*scaleFactor) - offset.z))`. -/
def prepPoint (scaleFactor offX offZ : ℚ) (p : ℚ × ℚ) : ℚ × ℚ :=
  (p.1 * scaleFactor - offX, -(p.2 * scaleFactor - offZ))

/-- Source lines 88–92 applied to the whole footprint. -/
def prepPoints (points : List (ℚ × ℚ)) (scaleFactor offX offZ : ℚ) : List (ℚ × ℚ) :=
  points.map (prepPoint scaleFactor offX offZ)

/-- JavaScript `Array.prototype.filter` with the element index, as used at
lines 96–98 and 359. -/
def filterWithIndex {α : Type} (p : ℕ → Bool) (l : List α) : List α :=
  (l.enum.filter (fun x => p x.1)).map Prod.snd

/-- Source lines 96–98: density decimation for footprints above 50 points
(keep even indices and the final point). -/
def decimateIfLarge (l : List (ℚ × ℚ)) : List (ℚ × ℚ) :=
  if 50 < l.length then filterWithIndex (fun i => i % 2 == 0 || i == l.length - 1) l else l

/-- Squared euclidean distance of two 2D points. -/
def sqDist (p q : ℚ × ℚ) : ℚ := (p.1 - q.1) ^ 2 + (p.2 - q.2) ^ 2

/-- Source lines 100–107: append the first point when the gap between first
and last point exceeds the 0.001 closure tolerance. The float comparison
`start.distanceTo(end) > 0.001` is modelled by the exactly equivalent
squared comparison (both sides are nonnegative). -/
def ensureClosure (l : List (ℚ × ℚ)) : List (ℚ × ℚ) :=
  match l.head?, l.getLast? with
  | some s, some e => if sqDist s e > (1 / 1000) ^ 2 then l ++ [s] else l
  | _, _ => l

/-- THREE `Shape(points)` + `extractPoints` for a polygon built from straight
segments: `Path.setFromPoints` chains `lineTo`s and `CurvePath.getPoints`
pushes each segment's endpoints, skipping a point equal to the previously
pushed one — the net effect is collapsing consecutive duplicate points. -/
def dedupConsecutive : List (ℚ × ℚ) → List (ℚ × ℚ)
  | [] => []
  | [p] => [p]
  | p :: q :: rest =>
    if p = q then dedupConsecutive (q :: rest) else p :: dedupConsecutive (q :: rest)

/-- THREE `ShapeUtils.area`: twice-signed shoelace area times one half; the
sum runs over the cyclic edge pairs of the contour. -/
def signedArea (l : List (ℚ × ℚ)) : ℚ :=
  ((l.zip (l.rotate 1)).map (fun e => e.1.1 * e.2.2 - e.2.1 * e.1.2)).sum / 2

/-- THREE `ShapeUtils.isClockWise`: negative signed area. -/
def isClockWise (l : List (ℚ × ℚ)) : Bool :=
  decide (signedArea l < 0)

/-- ExtrudeGeometry orients the outer contour clockwise
(`reverse = !ShapeUtils.isClockWise(vertices); if (reverse) vertices.reverse()`). -/
def orientContour (l : List (ℚ × ℚ)) : List (ℚ × ℚ) :=
  if isClockWise l then l else l.reverse

/-- THREE `ShapeUtils.triangulateShape` first drops a duplicated end point
(`removeDupEndPts`: pop when more than 2 points and last equals first). -/
def removeDupEndPt (l : List (ℚ × ℚ)) : List (ℚ × ℚ) :=
  if 2 < l.length ∧ l.getLast? = l.head? then l.dropLast else l

/-- Triangulation of the shape interior (THREE `ShapeUtils.triangulateShape`,
which calls Earcut). Earcut is deterministic; for the convex contours the
theorems below evaluate it on, ear clipping produces a fan. Degenerate
contours with fewer than 3 vertices produce no triangles, as Earcut does. -/
def triangulateFan (n : ℕ) : List (ℕ × ℕ × ℕ) :=
  if n < 3 then [] else (List.range (n - 2)).map (fun i => (0, i + 1, i + 2))

/-- ExtrudeGeometry vertex placeholder with bevel disabled: the contour at
`z = 0`, then one copy per step at `z = depth·s/steps` (s = 1..steps). -/
def extrudeLayers (contour : List (ℚ × ℚ)) (depth : ℚ) (steps : ℕ) : List V3 :=
  (List.range (steps + 1)).flatMap (fun s => contour.map (fun p => (p.1, p.2, depth * s / steps)))

/-- ExtrudeGeometry `buildLidFaces` with bevel disabled: bottom lid triangles
reversed (`f3(face[2], face[1], face[0])`), top lid triangles shifted onto the
last layer (`face[i] + vlen·steps`). -/
def lidFaceIdx (faces : List (ℕ × ℕ × ℕ)) (vlen steps : ℕ) : List ℕ :=
  faces.flatMap (fun f => [f.2.2, f.2.1, f.1]) ++
    faces.flatMap (fun f => [f.1 + vlen * steps, f.2.1 + vlen * steps, f.2.2 + vlen * steps])

/-- ExtrudeGeometry `buildSideFaces`/`sidewalls` with bevel disabled: walk the
contour edges from the last index down, emitting the two triangles of each
side quad per step (`f4(a,b,c,d)` pushes `a,b,d, b,c,d`). -/
def sideFaceIdx (vlen steps : ℕ) : List ℕ :=
  (List.range vlen).reverse.flatMap (fun i =>
    let j := i
    let k := if i = 0 then vlen - 1 else i - 1
    (List.range steps).flatMap (fun s =>
      let a := j + vlen * s
      let b := k + vlen * s
      let c := k + vlen * (s + 1)
      let d := j + vlen * (s + 1)
      [a, b, d, b, c, d]))

/-- Expansion of face indices through the vertex placeholder (`addVertex`). -/
def expandIdx (placeholder : List V3) (idx : List ℕ) : List V3 :=
  idx.map (fun i => placeholder.getD i (0, 0, 0))

/-- Position stream of `new THREE.ExtrudeGeometry(shape, settings)` for
`bevelEnabled = false` and a single shape without holes: orient the contour,
drop a duplicated end point, triangulate, lay the contour out layer by layer
and expand lid and side faces (ExtrudeGeometry is non-indexed). -/
def extrudeNoBevelPositions (contour : List (ℚ × ℚ)) (depth : ℚ) (steps : ℕ) : List V3 :=
  let c1 := removeDupEndPt (orientContour contour)
  let vlen := c1.length
  let faces := triangulateFan vlen
  let ph := extrudeLayers c1 depth steps
  expandIdx ph (lidFaceIdx faces vlen steps ++ sideFaceIdx vlen steps)

/-- Exact effect of `geometry.rotateX(-Math.PI / 2)` (line 164) on
coordinates: `(x, y, z) ↦ (x, z, -y)`. -/
def rotXneg90 (v : V3) : V3 := (v.1, v.2.2, -v.2.1)

/-- Source line 165, `geometry.translate(0, elevation || 0, 0)`. -/
def translateY (e : ℚ) (v : V3) : V3 := (v.1, v.2.1 + e, v.2.2)

/-! ## Extrusion settings (worker script lines 126–144) -/

/-- The `extrudeSettings` record assembled at lines 128–144. Bevel fields are
`Option`s because the source only sets them when bevel is enabled. -/
structure ExtrudeSettings where
  depth : ℚ
  curveSegments : ℕ
  steps : ℕ
  bevelEnabled : Bool
  bevelThickness : Option ℚ
  bevelSize : Option ℚ
  bevelSegments : Option ℕ
deriving DecidableEq

/-- Quality multiplier (line 111): 2 for high quality, 1 otherwise. -/
def qMult (quality : String) : ℕ := if quality = "high" then 2 else 1

/-- Source lines 126–144: depth defaults to 0.1 for non-positive heights;
steps = 3 only for bubble; bevel enabled for rounded/pillow/bubble or void
elements; bevelThickness = 0.3·h for pillow/bubble else 0.02; bevelSegments
12/8/2 for bubble/pillow/other; for pillow/bubble the core depth becomes
`max(0.001, h - 2·bevelThickness)`. -/
def extrudeSettingsOf (form ty : String) (height : ℚ) (quality : String) : ExtrudeSettings :=
  let h := if 0 < height then height else 1 / 10
  let base : ExtrudeSettings :=
    { depth := h
      curveSegments := 12 * qMult quality
      steps := if form = "bubble" then 3 else 1
      bevelEnabled := false
      bevelThickness := none
      bevelSize := none
      bevelSegments := none }
  if form = "rounded" ∨ form = "pillow" ∨ form = "bubble" ∨ ty = "void" then
    let bt : ℚ := if form = "pillow" ∨ form = "bubble" then h * (3 / 10) else 1 / 50
    let segs : ℕ := if form = "bubble" then 12 else if form = "pillow" then 8 else 2
    let depth1 : ℚ :=
      if form = "pillow" ∨ form = "bubble" then max (1 / 1000) (h - bt * 2) else h
    { base with
        bevelEnabled := true
        bevelThickness := some bt
        bevelSize := some bt
        bevelSegments := some segs
        depth := depth1 }
  else base

/-! ## Worker pipeline (worker script lines 78–190) -/

/-- Guard at lines 82–85: fewer than 3 raw points make the worker post
`{ id, error: 'Invalid points' }` and return before the pipeline. There is
no de-duplication: the check is on the raw array length. -/
def workerGuardError (points : List (ℚ × ℚ)) : Option String :=
  if points.length < 3 then some "Invalid points" else none

/-- Worker position stream for requests whose bevel is disabled and whose
form is non-organic (`form = "extrusion"`, element kind not `"void"`): shape
preparation (scale/offset/flip), density decimation, closure, the polygon
shape's extracted contour, extrusion with the computed depth/steps, then
orientation to the X-Z plane and translation by elevation (lines 88–165).
Organic forms take the Catmull-Rom/morph branch instead, which is modelled
separately (`morphStage` below); theorems restrict to the branch modelled
here. -/
def workerSolidPositions (p : Props) (quality : String) : List V3 :=
  let raw := prepPoints p.points p.scaleFactor p.offsetX p.offsetZ
  let simplified := decimateIfLarge raw
  let closed := ensureClosure simplified
  let contour := dedupConsecutive closed
  let settings := extrudeSettingsOf p.form p.ty p.height quality
  (extrudeNoBevelPositions contour settings.depth settings.steps).map
    (fun v => translateY p.elevation (rotXneg90 v))

/-- Number of distinct footprint points (the spec's "after de-duplication"). -/
def distinctPointCount (points : List (ℚ × ℚ)) : ℕ :=
  points.dedup.length

/-! ## LOD generation (lines 335–360) -/

/-- Source lines 356–360, `simplifyPoints`: identity for factor ≥ 1, else
keep indices divisible by `ceil(1/factor)` plus the final point. -/
def simplifyPoints (points : List (ℚ × ℚ)) (factor : ℚ) : List (ℚ × ℚ) :=
  if 1 ≤ factor then points
  else
    filterWithIndex
      (fun i => i % (⌈(1 : ℚ) / factor⌉).toNat == 0 || i == points.length - 1) points

/-- One geometry request issued by `generateLODs`. -/
structure LodRequest where
  points : List (ℚ × ℚ)
  quality : String
  useCache : Bool
  adaptive : Bool
deriving DecidableEq

/-- Source lines 335–354, `generateLODs`: for level i in 0..levels-1, quality
is high only for level 0, the simplification factor is 0.5^i, and
`requestGeometry(lodProps, quality, true, false)` is issued with the
decimated points (the other props fields are spread through unchanged). -/
def generateLODs (points : List (ℚ × ℚ)) (levels : ℕ) : List LodRequest :=
  (List.range levels).map (fun i =>
    { points := simplifyPoints points ((1 / 2 : ℚ) ^ i)
      quality := if i = 0 then "high" else "low"
      useCache := true
      adaptive := false })

/-! ## Caller-side engine (lines 196–408) -/

/-- Rendering of a rational in the cache key (the source interpolates
JavaScript numbers into a template string; only determinism of the rendering
matters to the theorems below). -/
def ratStr (q : ℚ) : String :=
  toString q.num ++ "/" ++ toString q.den

/-- `JSON.stringify(props.points)` (line 229), modelled as a canonical
rendering of the point list. -/
def pointsJson (ps : List (ℚ × ℚ)) : String :=
  "[" ++ String.intercalate "," (ps.map (fun p => "[" ++ ratStr p.1 ++ "," ++ ratStr p.2 ++ "]")) ++ "]"

/-- Source lines 228–231, `getCacheKey`: the fingerprint
`id_form_height_quality_pointsHash`. Note it omits elevation, scaleFactor,
offset and the element kind. -/
def getCacheKey (p : Props) (quality : String) : String :=
  p.id ++ "_" ++ p.form ++ "_" ++ ratStr p.height ++ "_" ++ quality ++ "_" ++ pointsJson p.points

/-- Payload of a worker success message (`data` at lines 181–185). -/
structure MeshData where
  position : List ℚ
  normal : List ℚ
  uv : List ℚ
  index : Option (List ℕ)
  tangent : Option (List ℚ)
deriving DecidableEq

/-- Content of a `THREE.BufferGeometry` object held by the engine, identified
by how the source builds it: `emptyGeo` is a bare `new THREE.BufferGeometry()`
with no attributes (as returned by `generateProxy` for footprints of fewer
than 3 points); `fromData d` is the geometry assembled from worker message
data at lines 276–287; `proxySolid p` is the synchronous proxy extrusion for
`props = p` (lines 367–386). `clone()` copies content, so clones share the
same `BufferContent` value at a fresh address. -/
inductive BufferContent where
  | emptyGeo : BufferContent
  | fromData : MeshData → BufferContent
  | proxySolid : Props → BufferContent
deriving DecidableEq

/-- Position stream of the synchronous proxy (lines 367–386): prepared points
(no decimation, no closure step), extruded with depth `h`, one step, no
bevel, rotated to X-Z and translated by elevation. -/
def proxyPositions (p : Props) : List V3 :=
  let raw := prepPoints p.points p.scaleFactor p.offsetX p.offsetZ
  let contour := dedupConsecutive raw
  let h := if 0 < p.height then p.height else 1 / 10
  (extrudeNoBevelPositions contour h 1).map (fun v => translateY p.elevation (rotXneg90 v))

/-- Whether the geometry has a `position` attribute. -/
def hasPositionAttr : BufferContent → Bool
  | .emptyGeo => false
  | .fromData _ => true
  | .proxySolid _ => true

/-- Whether the geometry has a `normal` attribute. -/
def hasNormalAttr : BufferContent → Bool
  | .emptyGeo => false
  | .fromData _ => true
  | .proxySolid _ => true

/-- Whether the geometry has a `uv` attribute (the proxy's ExtrudeGeometry
always generates one; the bare BufferGeometry has none). -/
def hasUVAttr : BufferContent → Bool
  | .emptyGeo => false
  | .fromData _ => true
  | .proxySolid _ => true

/-- Flattened coordinates of the position attribute, when present. -/
def positionAttr : BufferContent → Option (List ℚ)
  | .emptyGeo => none
  | .fromData d => some d.position
  | .proxySolid p => some ((proxyPositions p).flatMap (fun v => [v.1, v.2.1, v.2.2]))

/-- Source lines 362–387, `generateProxy`: footprints of fewer than 3 points
short-circuit to an empty `BufferGeometry` (the invalid-footprint guard of
the worker is not replicated as an error here); otherwise the proxy solid is
built. -/
def generateProxy (p : Props) : BufferContent :=
  if p.points.length < 3 then .emptyGeo else .proxySolid p

/-- Outcome of the promise returned by one `requestGeometry` call, keyed by
the call's correlation id. -/
inductive PromiseSt where
  | pending : PromiseSt
  | resolvedAddr : ℕ → PromiseSt
  | rejectedMsg : String → PromiseSt
deriving DecidableEq

/-- What the success callback closure captures (lines 274–297), plus the
timeout deadline scheduled at dispatch (lines 267–272). -/
structure CbInfo where
  props : Props
  quality : String
  useCache : Bool
  deadline : ℕ
deriving DecidableEq

/-- The engine's mutable state: the worker handle (alive or not), the pending
callback map, the geometry cache (fingerprint → address of the owned cached
geometry), the heap of geometry objects with a bump allocator, and the
per-request promise outcomes. -/
structure EngineState where
  workerAlive : Bool
  callbacks : List (String × CbInfo)
  geometryCache : List (String × ℕ)
  store : ℕ → BufferContent
  nextAddr : ℕ
  promises : List (String × PromiseSt)

/-- The `setTimeout` delay of the dispatcher (line 272): 15000 ms. -/
def workerTimeoutMs : ℕ := 15000

/-- Source lines 242–306, `requestGeometry(props, quality, useCache)`,
entered with a fresh correlation id (the source derives it from
`Date.now()`/`Math.random()`; the model takes it as a parameter) at wall
time `now`. Cache hits resolve with a clone of the cached geometry; without
a worker the synchronous proxy resolves immediately; otherwise the callback
is registered with deadline `now + 15000` and the request is posted to the
worker (its later answer is a `stepMsg` event). -/
def requestGeometry (s : EngineState) (p : Props) (quality : String)
    (useCache : Bool) (reqId : String) (now : ℕ) : EngineState :=
  match (if useCache then mapGet s.geometryCache (getCacheKey p quality) else none) with
  | some cachedAddr =>
    { s with
        store := Function.update s.store s.nextAddr (s.store cachedAddr)
        nextAddr := s.nextAddr + 1
        promises := mapSet s.promises reqId (.resolvedAddr s.nextAddr) }
  | none =>
    if s.workerAlive then
      { s with
          callbacks := mapSet s.callbacks reqId
            { props := p, quality := quality, useCache := useCache,
              deadline := now + workerTimeoutMs }
          promises := mapSet s.promises reqId .pending }
    else
      { s with
          store := Function.update s.store s.nextAddr (generateProxy p)
          nextAddr := s.nextAddr + 1
          promises := mapSet s.promises reqId (.resolvedAddr s.nextAddr) }

/-- Source lines 213–221 (`worker.onmessage`) combined with the registered
callback (lines 274–297). An unmatched correlation id does nothing. A failure
message only logs a warning and deletes the callback: the promise is left
pending and nothing is cached. A success message builds the geometry, caches
a clone under the fingerprint when `useCache` was set (followed by
`manageCacheSize`), and resolves the promise with the built geometry. -/
def stepMsg (s : EngineState) (id : String) (result : Except String MeshData) : EngineState :=
  match mapGet s.callbacks id with
  | none => s
  | some info =>
    match result with
    | .error _ => { s with callbacks := mapDelete s.callbacks id }
    | .ok data =>
      let a := s.nextAddr
      if info.useCache then
        { s with
            callbacks := mapDelete s.callbacks id
            store := Function.update (Function.update s.store a (.fromData data))
              (a + 1) (.fromData data)
            nextAddr := a + 2
            geometryCache :=
              manageCacheSize (mapSet s.geometryCache (getCacheKey info.props info.quality) (a + 1))
            promises := mapSet s.promises id (.resolvedAddr a) }
      else
        { s with
            callbacks := mapDelete s.callbacks id
            store := Function.update s.store a (.fromData data)
            nextAddr := a + 1
            promises := mapSet s.promises id (.resolvedAddr a) }

/-- Source lines 267–272: when the timeout fires and the correlation id is
still pending, the bookkeeping is removed and the promise is rejected with
"Worker timeout"; a timer firing for an id that was already handled (the
source actually `clearTimeout`s it, which the guard subsumes) does nothing. -/
def stepTimer (s : EngineState) (id : String) : EngineState :=
  if (mapGet s.callbacks id).isSome then
    { s with
        callbacks := mapDelete s.callbacks id
        promises := mapSet s.promises id (.rejectedMsg "Worker timeout") }
  else s

/-- Events delivered to the engine after a dispatch: worker responses and
timer firings. -/
inductive WorkerEvent where
  | msg : String → Except String MeshData → WorkerEvent
  | timer : String → WorkerEvent

/-- Correlation id carried by an event. -/
def eventId : WorkerEvent → String
  | .msg id _ => id
  | .timer id => id

/-- Processing one event. -/
def stepEvent (s : EngineState) : WorkerEvent → EngineState
  | .msg id r => stepMsg s id r
  | .timer id => stepTimer s id

/-- Processing a sequence of events in delivery order. -/
def runEvents (s : EngineState) (es : List WorkerEvent) : EngineState :=
  es.foldl stepEvent s

/-- Engine state right after construction with a live worker. -/
def initState : EngineState :=
  { workerAlive := true
    callbacks := []
    geometryCache := []
    store := fun _ => .emptyGeo
    nextAddr := 0
    promises := [] }

/-- Source lines 403–407, `dispose`: clear the cache and terminate the
worker. -/
def dispose (s : EngineState) : EngineState :=
  { s with geometryCache := [], workerAlive := false }

/-! ## Dispatcher lemmas -/

theorem not_mem_keys_of_mapGet_none {β : Type} (c : List (String × β)) (k : String)
    (h : mapGet c k = none) : k ∉ keysOf c := by
  induction c with
  | nil => simp [keysOf]
  | cons e rest ih =>
    rw [mapGet] at h
    by_cases he : e.1 = k
    · rw [if_pos he] at h; cases h
    · rw [if_neg he] at h
      simp only [keysOf, List.map_cons, List.mem_cons, not_or]
      exact ⟨fun hk => he hk.symm, by simpa [keysOf] using ih h⟩

theorem mapGet_eq_filter_head {β : Type} (c : List (String × β)) (k : String) :
    mapGet c k = ((c.filter (fun e => e.1 = k)).head?).map Prod.snd := by
  induction c with
  | nil => simp [mapGet]
  | cons e rest ih =>
    by_cases he : e.1 = k
    · simp [mapGet, he]
    · simp [mapGet, List.filter_cons, he, ih]

theorem filter_mapDelete_self {β : Type} (c : List (String × β)) (k : String) :
    (mapDelete c k).filter (fun e => e.1 = k) = (c.filter (fun e => e.1 = k)).tail := by
  induction c with
  | nil => simp [mapDelete]
  | cons e rest ih =>
    by_cases he : e.1 = k
    · simp [mapDelete, he, List.filter_cons]
    · simp [mapDelete, he, List.filter_cons, ih]

theorem filter_mapDelete_ne {β : Type} (c : List (String × β)) (k k' : String) (h : k' ≠ k) :
    (mapDelete c k').filter (fun e => e.1 = k) = c.filter (fun e => e.1 = k) := by
  induction c with
  | nil => simp [mapDelete]
  | cons e rest ih =>
    by_cases he : e.1 = k'
    · have : ¬ e.1 = k := by rw [he]; exact h
      simp [mapDelete, he, List.filter_cons, this, h]
    · simp [mapDelete, he, List.filter_cons, ih]

theorem filter_mapSet_ne {β : Type} (c : List (String × β)) (k k' : String) (v : β)
    (h : k' ≠ k) :
    (mapSet c k' v).filter (fun e => e.1 = k) = c.filter (fun e => e.1 = k) := by
  induction c with
  | nil => simp [mapSet, List.filter_cons, h]
  | cons e rest ih =>
    by_cases he : e.1 = k'
    · have hek : ¬ e.1 = k := by rw [he]; exact h
      simp [mapSet, he, List.filter_cons, hek, h]
    · simp [mapSet, he, List.filter_cons, ih]

theorem filter_mapSet_self_of_none {β : Type} (c : List (String × β)) (k : String) (v : β)
    (h : mapGet c k = none) :
    (mapSet c k v).filter (fun e => e.1 = k) = [(k, v)] := by
  rw [mapSet_eq_append c k v (not_mem_keys_of_mapGet_none c k h), List.filter_append]
  have hfil : c.filter (fun e => e.1 = k) = [] := by
    rw [List.filter_eq_nil_iff]
    intro e he
    intro hek
    have hmem : k ∈ keysOf c := by
      have : e.1 = k := by simpa using hek
      exact this ▸ List.mem_map_of_mem Prod.fst he
    exact not_mem_keys_of_mapGet_none c k h hmem
  simp [hfil]

/-- A cache miss (or `useCache = false`) with a live worker dispatches: the
callback with deadline `now + 15000` is registered and the promise is
pending. -/
theorem requestGeometry_dispatch (s0 : EngineState) (p : Props) (quality : String)
    (useCache : Bool) (reqId : String) (now : ℕ)
    (hw : s0.workerAlive = true)
    (hmiss : useCache = true → mapGet s0.geometryCache (getCacheKey p quality) = none) :
    requestGeometry s0 p quality useCache reqId now =
      { s0 with
          callbacks := mapSet s0.callbacks reqId
            { props := p, quality := quality, useCache := useCache,
              deadline := now + workerTimeoutMs }
          promises := mapSet s0.promises reqId .pending } := by
  cases useCache with
  | false => simp [requestGeometry, hw]
  | true => simp [requestGeometry, hmiss rfl, hw]

/-- A cache hit resolves immediately with a fresh clone of the cached
geometry. -/
theorem requestGeometry_cacheHit (s : EngineState) (p : Props) (quality : String)
    (reqId : String) (now : ℕ) (a : ℕ)
    (hhit : mapGet s.geometryCache (getCacheKey p quality) = some a) :
    requestGeometry s p quality true reqId now =
      { s with
          store := Function.update s.store s.nextAddr (s.store a)
          nextAddr := s.nextAddr + 1
          promises := mapSet s.promises reqId (.resolvedAddr s.nextAddr) } := by
  rw [requestGeometry]
  simp only [if_true, hhit]

/-- Events for other correlation ids do not disturb this id's callback
entries or its promise. -/
theorem stepEvent_frame (s : EngineState) (e : WorkerEvent) (id : String)
    (h : eventId e ≠ id) :
    (stepEvent s e).callbacks.filter (fun x => x.1 = id) =
      s.callbacks.filter (fun x => x.1 = id) ∧
    mapGet (stepEvent s e).promises id = mapGet s.promises id := by
  cases e with
  | msg mid r =>
    have hid : mid ≠ id := h
    show (stepMsg s mid r).callbacks.filter _ = _ ∧ mapGet (stepMsg s mid r).promises id = _
    rw [stepMsg]
    cases hcb : mapGet s.callbacks mid with
    | none => exact ⟨rfl, rfl⟩
    | some info =>
      cases r with
      | error msg => exact ⟨filter_mapDelete_ne _ _ _ hid, rfl⟩
      | ok data =>
        by_cases hu : info.useCache
        · simp only [hu, if_true]
          exact ⟨filter_mapDelete_ne _ _ _ hid, mapGet_mapSet_ne _ _ _ _ (Ne.symm hid)⟩
        · simp only [hu, if_false]
          exact ⟨filter_mapDelete_ne _ _ _ hid, mapGet_mapSet_ne _ _ _ _ (Ne.symm hid)⟩
  | timer tid =>
    have hid : tid ≠ id := h
    show (stepTimer s tid).callbacks.filter _ = _ ∧ mapGet (stepTimer s tid).promises id = _
    rw [stepTimer]
    by_cases hp : (mapGet s.callbacks tid).isSome
    · simp only [hp, if_true]
      exact ⟨filter_mapDelete_ne _ _ _ hid, mapGet_mapSet_ne _ _ _ _ (Ne.symm hid)⟩
    · simp only [hp, if_false]
      exact ⟨rfl, rfl⟩

/-- Frame property for a whole event sequence that never mentions this id. -/
theorem runEvents_frame (es : List WorkerEvent) (s : EngineState) (id : String)
    (h : ∀ e ∈ es, eventId e ≠ id) :
    (runEvents s es).callbacks.filter (fun x => x.1 = id) =
      s.callbacks.filter (fun x => x.1 = id) ∧
    mapGet (runEvents s es).promises id = mapGet s.promises id := by
  induction es generalizing s with
  | nil => exact ⟨rfl, rfl⟩
  | cons e rest ih =>
    have h1 := stepEvent_frame s e id (h e (List.mem_cons_self e rest))
    have h2 := ih (stepEvent s e) (fun x hx => h x (List.mem_cons_of_mem e hx))
    rw [runEvents, List.foldl_cons]
    exact ⟨h2.1.trans h1.1, (h2.2.trans h1.2 : _)⟩

/-! ## Sample request payloads used by concrete theorems -/

/-- A simple triangular solid element. -/
def sampleProps : Props :=
  { id := "el1"
    ty := "solid"
    points := [(0, 0), (1, 0), (0, 1)]
    form := "extrusion"
    height := 2
    elevation := 0
    scaleFactor := 1
    offsetX := 0
    offsetZ := 0 }

/-- A degenerate element with a single footprint point. -/
def fewPointsProps : Props :=
  { sampleProps with id := "el2", points := [(0, 0)] }

/-- A sample successful worker payload (the engine treats it opaquely). -/
def sampleData : MeshData :=
  { position := [0, 0, 0, 1, 0, 0, 0, 0, 1]
    normal := [0, 1, 0, 0, 1, 0, 0, 1, 0]
    uv := [0, 0, 1, 0, 0, 1]
    index := none
    tangent := none }

/-! ## C4 — timeout behaviour -/

/-- C4: a dispatched request whose correlation id receives no worker response
while other traffic flows (`es` contains only events for other ids) is, when
its timer fires, rejected with "Worker timeout" and its pending bookkeeping
is removed; the scheduled deadline is dispatch time plus the default 15000 ms
(15 wall-clock units); and a worker response carrying the correlation id that
arrives after the timeout leaves the state entirely unchanged — it resolves
nothing, rejects nothing and inserts nothing into the cache. -/
theorem c4_timeout_rejects_and_late_response_dropped
    (s0 : EngineState) (p : Props) (quality : String) (useCache : Bool)
    (reqId : String) (now : ℕ) (es : List WorkerEvent)
    (hw : s0.workerAlive = true)
    (hmiss : useCache = true → mapGet s0.geometryCache (getCacheKey p quality) = none)
    (h0 : mapGet s0.callbacks reqId = none)
    (hes : ∀ e ∈ es, eventId e ≠ reqId) :
    mapGet (requestGeometry s0 p quality useCache reqId now).callbacks reqId =
      some { props := p, quality := quality, useCache := useCache, deadline := now + 15000 } ∧
    workerTimeoutMs = 15000 ∧
    mapGet (runEvents (requestGeometry s0 p quality useCache reqId now) es).promises reqId =
      some .pending ∧
    mapGet (stepTimer
        (runEvents (requestGeometry s0 p quality useCache reqId now) es) reqId).promises reqId =
      some (.rejectedMsg "Worker timeout") ∧
    mapGet (stepTimer
        (runEvents (requestGeometry s0 p quality useCache reqId now) es) reqId).callbacks reqId =
      none ∧
    (∀ r, stepMsg (stepTimer
        (runEvents (requestGeometry s0 p quality useCache reqId now) es) reqId) reqId r =
      stepTimer (runEvents (requestGeometry s0 p quality useCache reqId now) es) reqId) := by
  have hdisp := requestGeometry_dispatch s0 p quality useCache reqId now hw hmiss
  set info : CbInfo :=
    { props := p, quality := quality, useCache := useCache, deadline := now + workerTimeoutMs }
    with hinfo
  have hcb1 : mapGet (requestGeometry s0 p quality useCache reqId now).callbacks reqId =
      some info := by
    rw [hdisp]; exact mapGet_mapSet_self _ _ _
  have hfil1 : (requestGeometry s0 p quality useCache reqId now).callbacks.filter
      (fun x => x.1 = reqId) = [(reqId, info)] := by
    rw [hdisp]; exact filter_mapSet_self_of_none _ _ _ h0
  have hpr1 : mapGet (requestGeometry s0 p quality useCache reqId now).promises reqId =
      some .pending := by
    rw [hdisp]; exact mapGet_mapSet_self _ _ _
  obtain ⟨hfil2, hpr2⟩ :=
    runEvents_frame es (requestGeometry s0 p quality useCache reqId now) reqId hes
  have hcb2 : mapGet (runEvents (requestGeometry s0 p quality useCache reqId now) es).callbacks
      reqId = some info := by
    rw [mapGet_eq_filter_head, hfil2, hfil1]; rfl
  have hfire : stepTimer (runEvents (requestGeometry s0 p quality useCache reqId now) es) reqId =
      { runEvents (requestGeometry s0 p quality useCache reqId now) es with
          callbacks := mapDelete
            (runEvents (requestGeometry s0 p quality useCache reqId now) es).callbacks reqId
          promises := mapSet
            (runEvents (requestGeometry s0 p quality useCache reqId now) es).promises reqId
            (.rejectedMsg "Worker timeout") } := by
    rw [stepTimer, hcb2]
    rfl
  have hcb3 : mapGet (stepTimer
      (runEvents (requestGeometry s0 p quality useCache reqId now) es) reqId).callbacks reqId =
      none := by
    rw [hfire]
    show mapGet (mapDelete _ reqId) reqId = none
    rw [mapGet_eq_filter_head, filter_mapDelete_self, hfil2, hfil1]
    rfl
  refine ⟨by rw [hcb1, hinfo]; rfl, rfl, hpr2.trans hpr1, ?_, hcb3, ?_⟩
  · rw [hfire]
    exact mapGet_mapSet_self _ _ _
  · intro r
    rw [stepMsg, hcb3]

/-- Witness for C4 at a concrete dispatched request with no intervening
events. -/
theorem c4_timeout_rejects_and_late_response_dropped_witness :
    mapGet (stepTimer (runEvents (requestGeometry initState sampleProps "high" true "rq1" 5) [])
      "rq1").promises "rq1" = some (.rejectedMsg "Worker timeout") ∧
    mapGet (stepTimer (runEvents (requestGeometry initState sampleProps "high" true "rq1" 5) [])
      "rq1").callbacks "rq1" = none :=
  have h := c4_timeout_rejects_and_late_response_dropped initState sampleProps "high" true
    "rq1" 5 [] rfl (fun _ => rfl) rfl (by intro e he; cases he)
  ⟨h.2.2.2.1, h.2.2.2.2.1⟩

/-! ## C1 — worker failure responses -/

/-- C1 as specified is false: the worker failure response does not reject the
promise. Concretely, after dispatching a request and receiving a failure
response carrying its correlation id, the promise is not rejected with the
worker's message — it is still pending (the handler only logs a warning and
drops the callback) — though indeed nothing was inserted into the cache. -/
theorem c1_failure_response_counterexample :
    mapGet (stepMsg (requestGeometry initState sampleProps "high" true "rq2" 0) "rq2"
      (.error "Insufficient points")).promises "rq2" ≠
      some (.rejectedMsg "Insufficient points") ∧
    mapGet (stepMsg (requestGeometry initState sampleProps "high" true "rq2" 0) "rq2"
      (.error "Insufficient points")).promises "rq2" = some .pending ∧
    (stepMsg (requestGeometry initState sampleProps "high" true "rq2" 0) "rq2"
      (.error "Insufficient points")).geometryCache = [] := by
  decide

/-- C1 amended: when the worker posts a failure response for a dispatched
request, no entry is inserted into the geometry cache and no geometry is
allocated, and the pending callback is removed — but the promise is not
rejected with the worker's error message: it stays pending, and the later
timer firing no longer affects it (the correlation id is gone), so the
promise never settles. -/
theorem c1_failure_response_behavior
    (s0 : EngineState) (p : Props) (quality : String) (useCache : Bool)
    (reqId : String) (now : ℕ) (emsg : String)
    (hw : s0.workerAlive = true)
    (hmiss : useCache = true → mapGet s0.geometryCache (getCacheKey p quality) = none)
    (h0 : mapGet s0.callbacks reqId = none) :
    mapGet (stepMsg (requestGeometry s0 p quality useCache reqId now) reqId
      (.error emsg)).promises reqId = some .pending ∧
    mapGet (stepMsg (requestGeometry s0 p quality useCache reqId now) reqId
      (.error emsg)).callbacks reqId = none ∧
    (stepMsg (requestGeometry s0 p quality useCache reqId now) reqId
      (.error emsg)).geometryCache = s0.geometryCache ∧
    (stepMsg (requestGeometry s0 p quality useCache reqId now) reqId
      (.error emsg)).store = s0.store ∧
    (stepMsg (requestGeometry s0 p quality useCache reqId now) reqId
      (.error emsg)).nextAddr = s0.nextAddr ∧
    stepTimer (stepMsg (requestGeometry s0 p quality useCache reqId now) reqId
      (.error emsg)) reqId =
      stepMsg (requestGeometry s0 p quality useCache reqId now) reqId (.error emsg) := by
  have hdisp := requestGeometry_dispatch s0 p quality useCache reqId now hw hmiss
  set info : CbInfo :=
    { props := p, quality := quality, useCache := useCache, deadline := now + workerTimeoutMs }
    with hinfo
  have hcb1 : mapGet (requestGeometry s0 p quality useCache reqId now).callbacks reqId =
      some info := by
    rw [hdisp]; exact mapGet_mapSet_self _ _ _
  have herr : stepMsg (requestGeometry s0 p quality useCache reqId now) reqId (.error emsg) =
      { requestGeometry s0 p quality useCache reqId now with
          callbacks := mapDelete
            (requestGeometry s0 p quality useCache reqId now).callbacks reqId } := by
    rw [stepMsg, hcb1]
  have hcbnone : mapGet (stepMsg (requestGeometry s0 p quality useCache reqId now) reqId
      (.error emsg)).callbacks reqId = none := by
    rw [herr]
    show mapGet (mapDelete _ reqId) reqId = none
    rw [hdisp]
    exact mapGet_mapDelete_mapSet_self _ _ _ (not_mem_keys_of_mapGet_none _ _ h0)
  refine ⟨?_, hcbnone, ?_, ?_, ?_, ?_⟩
  · rw [herr]
    show mapGet (requestGeometry s0 p quality useCache reqId now).promises reqId = some .pending
    rw [hdisp]
    exact mapGet_mapSet_self _ _ _
  · rw [herr, hdisp]
  · rw [herr, hdisp]
  · rw [herr, hdisp]
  · rw [stepTimer, hcbnone]
    rfl

/-- Witness for the amended C1 at a concrete request and failure message. -/
theorem c1_failure_response_behavior_witness :
    mapGet (stepMsg (requestGeometry initState sampleProps "low" true "rq3" 2) "rq3"
      (.error "Unknown Worker Error")).promises "rq3" = some .pending ∧
    (stepMsg (requestGeometry initState sampleProps "low" true "rq3" 2) "rq3"
      (.error "Unknown Worker Error")).geometryCache = [] :=
  have h := c1_failure_response_behavior initState sampleProps "low" true "rq3" 2
    "Unknown Worker Error" rfl (fun _ => rfl) rfl
  ⟨h.1, h.2.2.1⟩

/-! ## C5 — cache idempotence with distinct owned instances -/

theorem mapSet_length_le {β : Type} (c : List (String × β)) (k : String) (v : β) :
    (mapSet c k v).length ≤ c.length + 1 := by
  induction c with
  | nil => simp [mapSet]
  | cons e rest ih =>
    by_cases he : e.1 = k
    · simp [mapSet, he]
    · simp only [mapSet, he, if_false, List.length_cons]
      omega

/-- C5: issuing the same request twice in sequence with `useCache = true`
(dispatch, worker success, then the second call hitting the cache) resolves
both promises with geometries of identical content — all attribute arrays
equal, since all three objects carry the same `BufferContent` — yet the first
caller's geometry, the cached entry and the second caller's geometry live at
three pairwise-distinct addresses, and overwriting the content at any one of
the three leaves the other two untouched. -/
theorem c5_cache_idempotence_distinct_instances
    (s0 : EngineState) (p : Props) (quality : String)
    (id1 id2 : String) (now1 now2 : ℕ) (data : MeshData)
    (hw : s0.workerAlive = true)
    (hmiss : mapGet s0.geometryCache (getCacheKey p quality) = none)
    (hroom : s0.geometryCache.length < maxCacheSize)
    (hne : id2 ≠ id1) :
    mapGet (requestGeometry (stepMsg (requestGeometry s0 p quality true id1 now1) id1 (.ok data))
        p quality true id2 now2).promises id1 = some (.resolvedAddr s0.nextAddr) ∧
    mapGet (requestGeometry (stepMsg (requestGeometry s0 p quality true id1 now1) id1 (.ok data))
        p quality true id2 now2).promises id2 = some (.resolvedAddr (s0.nextAddr + 2)) ∧
    mapGet (requestGeometry (stepMsg (requestGeometry s0 p quality true id1 now1) id1 (.ok data))
        p quality true id2 now2).geometryCache (getCacheKey p quality) =
      some (s0.nextAddr + 1) ∧
    (requestGeometry (stepMsg (requestGeometry s0 p quality true id1 now1) id1 (.ok data))
        p quality true id2 now2).store s0.nextAddr = .fromData data ∧
    (requestGeometry (stepMsg (requestGeometry s0 p quality true id1 now1) id1 (.ok data))
        p quality true id2 now2).store (s0.nextAddr + 1) = .fromData data ∧
    (requestGeometry (stepMsg (requestGeometry s0 p quality true id1 now1) id1 (.ok data))
        p quality true id2 now2).store (s0.nextAddr + 2) = .fromData data ∧
    (∀ b : BufferContent, ∀ x ∈ [s0.nextAddr, s0.nextAddr + 1, s0.nextAddr + 2],
      ∀ y ∈ [s0.nextAddr, s0.nextAddr + 1, s0.nextAddr + 2], x ≠ y →
      Function.update
        ((requestGeometry (stepMsg (requestGeometry s0 p quality true id1 now1) id1 (.ok data))
          p quality true id2 now2).store) x b y =
        (requestGeometry (stepMsg (requestGeometry s0 p quality true id1 now1) id1 (.ok data))
          p quality true id2 now2).store y) := by
  have hdisp := requestGeometry_dispatch s0 p quality true id1 now1 hw (fun _ => hmiss)
  have hcb1 : mapGet (requestGeometry s0 p quality true id1 now1).callbacks id1 =
      some { props := p, quality := quality, useCache := true,
             deadline := now1 + workerTimeoutMs } := by
    rw [hdisp]; exact mapGet_mapSet_self _ _ _
  have hs2 : stepMsg (requestGeometry s0 p quality true id1 now1) id1 (.ok data) =
      { workerAlive := s0.workerAlive
        callbacks := mapDelete (mapSet s0.callbacks id1
          { props := p, quality := quality, useCache := true,
            deadline := now1 + workerTimeoutMs }) id1
        geometryCache :=
          manageCacheSize (mapSet s0.geometryCache (getCacheKey p quality) (s0.nextAddr + 1))
        store := Function.update (Function.update s0.store s0.nextAddr (.fromData data))
          (s0.nextAddr + 1) (.fromData data)
        nextAddr := s0.nextAddr + 2
        promises := mapSet (mapSet s0.promises id1 .pending) id1
          (.resolvedAddr s0.nextAddr) } := by
    rw [stepMsg, hcb1, hdisp]
    rfl
  have hmanage : manageCacheSize (mapSet s0.geometryCache (getCacheKey p quality)
      (s0.nextAddr + 1)) = mapSet s0.geometryCache (getCacheKey p quality) (s0.nextAddr + 1) := by
    apply manageCacheSize_eq_self
    calc (mapSet s0.geometryCache (getCacheKey p quality) (s0.nextAddr + 1)).length
        ≤ s0.geometryCache.length + 1 := mapSet_length_le _ _ _
      _ ≤ maxCacheSize := hroom
  have hcachehit : mapGet (stepMsg (requestGeometry s0 p quality true id1 now1) id1
      (.ok data)).geometryCache (getCacheKey p quality) = some (s0.nextAddr + 1) := by
    rw [hs2]
    show mapGet (manageCacheSize (mapSet s0.geometryCache (getCacheKey p quality)
      (s0.nextAddr + 1))) (getCacheKey p quality) = _
    rw [hmanage]
    exact mapGet_mapSet_self _ _ _
  have hs3 := requestGeometry_cacheHit
    (stepMsg (requestGeometry s0 p quality true id1 now1) id1 (.ok data))
    p quality id2 now2 (s0.nextAddr + 1) hcachehit
  have hn2 : (stepMsg (requestGeometry s0 p quality true id1 now1) id1
      (.ok data)).nextAddr = s0.nextAddr + 2 := by
    rw [hs2]
  have hst_a1 : (stepMsg (requestGeometry s0 p quality true id1 now1) id1
      (.ok data)).store s0.nextAddr = .fromData data := by
    rw [hs2]
    show Function.update (Function.update s0.store s0.nextAddr (.fromData data))
      (s0.nextAddr + 1) (.fromData data) s0.nextAddr = _
    rw [Function.update_noteq (by omega), Function.update_same]
  have hst_a2 : (stepMsg (requestGeometry s0 p quality true id1 now1) id1
      (.ok data)).store (s0.nextAddr + 1) = .fromData data := by
    rw [hs2]
    show Function.update (Function.update s0.store s0.nextAddr (.fromData data))
      (s0.nextAddr + 1) (.fromData data) (s0.nextAddr + 1) = _
    rw [Function.update_same]
  have hpr2 : (stepMsg (requestGeometry s0 p quality true id1 now1) id1
      (.ok data)).promises = mapSet (mapSet s0.promises id1 .pending) id1
      (.resolvedAddr s0.nextAddr) := by
    rw [hs2]
  refine ⟨?_, ?_, ?_, ?_, ?_, ?_, ?_⟩
  · rw [hs3]
    show mapGet (mapSet (stepMsg (requestGeometry s0 p quality true id1 now1) id1
      (.ok data)).promises id2 _) id1 = _
    rw [mapGet_mapSet_ne _ _ _ _ (Ne.symm hne), hpr2, mapGet_mapSet_self]
  · rw [hs3]
    show mapGet (mapSet (stepMsg (requestGeometry s0 p quality true id1 now1) id1
      (.ok data)).promises id2 (.resolvedAddr (stepMsg (requestGeometry s0 p quality true id1
      now1) id1 (.ok data)).nextAddr)) id2 = _
    rw [mapGet_mapSet_self, hn2]
  · rw [hs3]
    exact hcachehit
  · rw [hs3]
    show Function.update (stepMsg (requestGeometry s0 p quality true id1 now1) id1
      (.ok data)).store (stepMsg (requestGeometry s0 p quality true id1 now1) id1
      (.ok data)).nextAddr _ s0.nextAddr = _
    rw [hn2, Function.update_noteq (by omega), hst_a1]
  · rw [hs3]
    show Function.update (stepMsg (requestGeometry s0 p quality true id1 now1) id1
      (.ok data)).store (stepMsg (requestGeometry s0 p quality true id1 now1) id1
      (.ok data)).nextAddr _ (s0.nextAddr + 1) = _
    rw [hn2, Function.update_noteq (by omega), hst_a2]
  · rw [hs3]
    show Function.update (stepMsg (requestGeometry s0 p quality true id1 now1) id1
      (.ok data)).store (stepMsg (requestGeometry s0 p quality true id1 now1) id1
      (.ok data)).nextAddr ((stepMsg (requestGeometry s0 p quality true id1 now1) id1
      (.ok data)).store (s0.nextAddr + 1)) (s0.nextAddr + 2) = _
    rw [hn2, Function.update_same, hst_a2]
  · intro b x hx y hy hxy
    rw [Function.update_noteq (Ne.symm hxy)]

/-- Witness for C5 at a concrete request, worker payload and pair of
correlation ids. -/
theorem c5_cache_idempotence_distinct_instances_witness :
    mapGet (requestGeometry (stepMsg (requestGeometry initState sampleProps "high" true "ca" 0)
        "ca" (.ok sampleData)) sampleProps "high" true "cb" 9).promises "cb" =
      some (.resolvedAddr 2) ∧
    (requestGeometry (stepMsg (requestGeometry initState sampleProps "high" true "ca" 0)
        "ca" (.ok sampleData)) sampleProps "high" true "cb" 9).store 0 = .fromData sampleData ∧
    (requestGeometry (stepMsg (requestGeometry initState sampleProps "high" true "ca" 0)
        "ca" (.ok sampleData)) sampleProps "high" true "cb" 9).store 2 = .fromData sampleData :=
  have h := c5_cache_idempotence_distinct_instances initState sampleProps "high" "ca" "cb"
    0 9 sampleData rfl rfl (by decide) (by decide)
  ⟨h.2.1, h.2.2.2.1, h.2.2.2.2.2.1⟩

/-! ## C10 — proxy fallback skips the invalid-footprint guard -/

/-- C10: with no live worker (construction failed or `dispose()` was called),
a request whose footprint has fewer than 3 points resolves successfully with
an empty geometry — no position, normal or uv attribute — through the
synchronous proxy fallback, instead of failing with the invalid-geometry
error: the guard of the worker is not enforced on this path. -/
theorem c10_proxy_fallback_invalid_footprint
    (s0 : EngineState) (p : Props) (quality : String) (useCache : Bool)
    (reqId : String) (now : ℕ)
    (hw : s0.workerAlive = false)
    (hmiss : useCache = true → mapGet s0.geometryCache (getCacheKey p quality) = none)
    (hfew : p.points.length < 3) :
    mapGet (requestGeometry s0 p quality useCache reqId now).promises reqId =
      some (.resolvedAddr s0.nextAddr) ∧
    (requestGeometry s0 p quality useCache reqId now).store s0.nextAddr = .emptyGeo ∧
    hasPositionAttr ((requestGeometry s0 p quality useCache reqId now).store s0.nextAddr) =
      false ∧
    hasNormalAttr ((requestGeometry s0 p quality useCache reqId now).store s0.nextAddr) =
      false ∧
    hasUVAttr ((requestGeometry s0 p quality useCache reqId now).store s0.nextAddr) = false ∧
    (∀ m, mapGet (requestGeometry s0 p quality useCache reqId now).promises reqId ≠
      some (.rejectedMsg m)) := by
  have hproxy : generateProxy p = .emptyGeo := by
    rw [generateProxy, if_pos hfew]
  have hstep : requestGeometry s0 p quality useCache reqId now =
      { s0 with
          store := Function.update s0.store s0.nextAddr (generateProxy p)
          nextAddr := s0.nextAddr + 1
          promises := mapSet s0.promises reqId (.resolvedAddr s0.nextAddr) } := by
    cases useCache with
    | false => simp [requestGeometry, hw]
    | true => simp [requestGeometry, hmiss rfl, hw]
  have hpr : mapGet (requestGeometry s0 p quality useCache reqId now).promises reqId =
      some (.resolvedAddr s0.nextAddr) := by
    rw [hstep]; exact mapGet_mapSet_self _ _ _
  have hst : (requestGeometry s0 p quality useCache reqId now).store s0.nextAddr = .emptyGeo := by
    rw [hstep]
    show Function.update s0.store s0.nextAddr (generateProxy p) s0.nextAddr = _
    rw [Function.update_same, hproxy]
  refine ⟨hpr, hst, ?_, ?_, ?_, ?_⟩
  · rw [hst]; rfl
  · rw [hst]; rfl
  · rw [hst]; rfl
  · intro m h
    rw [hpr] at h
    cases h

/-- Witness for C10: a disposed engine resolving a single-point footprint
with the empty proxy geometry. -/
theorem c10_proxy_fallback_invalid_footprint_witness :
    mapGet (requestGeometry (dispose initState) fewPointsProps "high" true "rq4" 0).promises
      "rq4" = some (.resolvedAddr 0) ∧
    (requestGeometry (dispose initState) fewPointsProps "high" true "rq4" 0).store 0 =
      .emptyGeo :=
  have h := c10_proxy_fallback_invalid_footprint (dispose initState) fewPointsProps "high" true
    "rq4" 0 rfl (fun _ => rfl) (by decide)
  ⟨h.1, h.2.1⟩

/-! ## C2 — the invalid-footprint guard does not de-duplicate -/

/-- A degenerate element whose three footprint points coincide. -/
def degenerateProps : Props :=
  { sampleProps with id := "el3", points := [(0, 0), (0, 0), (0, 0)] }

/-- C2 as specified is false: the worker guard checks the raw point count,
not the count after de-duplication. A footprint of three identical points has
a single distinct point, yet the guard does not fire — the request is passed
into the pipeline, which produces (degenerate) solid geometry rather than
the invalid-geometry failure. -/
theorem c2_invalid_footprint_counterexample :
    distinctPointCount degenerateProps.points < 3 ∧
    workerGuardError degenerateProps.points = none ∧
    workerSolidPositions degenerateProps "low" ≠ [] := by
  decide

/-- C2 amended: for every request whose footprint contains fewer than 3 raw
points (the worker performs no de-duplication), the worker fails with the
`'Invalid points'` error before entering the pipeline; and processing a
failure response never creates a cache entry or allocates a geometry (the
promise, however, is not rejected — see the C1 theorems). -/
theorem c2_invalid_footprint_guard (points : List (ℚ × ℚ))
    (hfew : points.length < 3) :
    workerGuardError points = some "Invalid points" ∧
    (∀ (s : EngineState) (id emsg : String),
      (stepMsg s id (.error emsg)).geometryCache = s.geometryCache ∧
      (stepMsg s id (.error emsg)).nextAddr = s.nextAddr) := by
  refine ⟨by rw [workerGuardError, if_pos hfew], ?_⟩
  intro s id emsg
  rw [stepMsg]
  cases mapGet s.callbacks id with
  | none => exact ⟨rfl, rfl⟩
  | some info => exact ⟨rfl, rfl⟩

/-- Witness for the amended C2 at a one-point footprint. -/
theorem c2_invalid_footprint_guard_witness :
    workerGuardError fewPointsProps.points = some "Invalid points" :=
  (c2_invalid_footprint_guard fewPointsProps.points (by decide)).1

/-! ## C3 — the fingerprint does not determine the mesh content -/

/-- C3 as specified is false: two requests with the same cache fingerprint
(equal id, form, height, quality and point sequence) but different elevation
produce different position buffers, because the worker translates every
vertex by `elevation` while `getCacheKey` omits it. -/
theorem c3_fingerprint_determinism_counterexample :
    getCacheKey { sampleProps with elevation := 1 } "low" = getCacheKey sampleProps "low" ∧
    workerSolidPositions { sampleProps with elevation := 1 } "low" ≠
      workerSolidPositions sampleProps "low" := by
  decide

/-- C3 amended: the mesh content is deterministic in the full request — two
requests that agree on the fingerprint fields (id, form, height, points,
quality) and also on the fields the fingerprint omits (elevation,
scaleFactor, origin offset, element kind) share the fingerprint and produce
identical position buffers. (The counterexample shows the agreement on
elevation cannot be dropped.) -/
theorem c3_full_request_determinism (p1 p2 : Props) (quality : String)
    (hid : p1.id = p2.id) (hpts : p1.points = p2.points) (hform : p1.form = p2.form)
    (hh : p1.height = p2.height) (helev : p1.elevation = p2.elevation)
    (hscale : p1.scaleFactor = p2.scaleFactor) (hox : p1.offsetX = p2.offsetX)
    (hoz : p1.offsetZ = p2.offsetZ) (hty : p1.ty = p2.ty) :
    getCacheKey p1 quality = getCacheKey p2 quality ∧
    workerSolidPositions p1 quality = workerSolidPositions p2 quality := by
  constructor
  · rw [getCacheKey, getCacheKey, hid, hform, hh, hpts]
  · rw [workerSolidPositions, workerSolidPositions, hpts, hscale, hox, hoz, hform, hty, hh,
      helev]

/-- Witness for the amended C3 at two (syntactically distinct but field-wise
equal) concrete requests. -/
theorem c3_full_request_determinism_witness :
    workerSolidPositions { sampleProps with elevation := 0 } "low" =
      workerSolidPositions sampleProps "low" :=
  (c3_full_request_determinism { sampleProps with elevation := 0 } sampleProps "low"
    rfl rfl rfl rfl rfl rfl rfl rfl rfl).2

/-! ## C7 — LOD point counts -/

theorem enumFrom_filter_length {α : Type} (p : ℕ → Bool) :
    ∀ (l : List α) (n : ℕ),
      ((List.enumFrom n l).filter (fun x => p x.1)).length =
        ((List.range' n l.length).filter p).length := by
  intro l
  induction l with
  | nil => intro n; rfl
  | cons a t ih =>
    intro n
    show (((n, a) :: List.enumFrom (n + 1) t).filter (fun x => p x.1)).length =
      ((List.range' n (t.length + 1)).filter p).length
    rw [List.range'_succ]
    by_cases hp : p n
    · simp only [List.filter_cons, hp, if_true, List.length_cons, ih]
    · simp only [List.filter_cons, hp, Bool.false_eq_true, if_false, ih]

/-- The number of surviving elements of an index-based filter depends only on
the length of the list. -/
theorem filterWithIndex_length {α : Type} (p : ℕ → Bool) (l : List α) :
    (filterWithIndex p l).length = ((List.range l.length).filter p).length := by
  rw [filterWithIndex, List.length_map, List.range_eq_range']
  exact enumFrom_filter_length p l 0

/-- The 40-point footprint of the spec's LOD scenario. -/
def pts40 : List (ℚ × ℚ) := (List.range 40).map (fun n => ((n : ℚ), 0))

/-- C7 as specified is false: for a 40-point footprint, `simplifyPoints`
keeps the stride survivors AND always the final point, so the three LOD
levels have 40, 21 and 11 points — not 40, 20 and 10. -/
theorem c7_lod_counterexample :
    (generateLODs pts40 3).map (fun r => r.points.length) ≠ [40, 20, 10] ∧
    (generateLODs pts40 3).map (fun r => r.points.length) = [40, 21, 11] := by
  decide

/-- C7 amended: for every 40-point footprint, `generateLODs` with 3 levels
issues exactly three geometry requests whose decimated point lists have
counts 40, 21 and 11 (strides 1, 2, 4 keep 40, 20 and 10 points, and the
final point is additionally retained at the decimated levels), with quality
High for level 0 and Low for levels 1 and 2 (each with `useCache = true` and
`adaptive = false`). -/
theorem c7_lod_counts (points : List (ℚ × ℚ)) (hlen : points.length = 40) :
    (generateLODs points 3).map (fun r => r.points.length) = [40, 21, 11] ∧
    (generateLODs points 3).map (fun r => r.quality) = ["high", "low", "low"] ∧
    (generateLODs points 3).map (fun r => r.useCache) = [true, true, true] ∧
    (generateLODs points 3).map (fun r => r.adaptive) = [false, false, false] := by
  have hr3 : List.range 3 = [0, 1, 2] := by decide
  have h0 : simplifyPoints points ((1 / 2 : ℚ) ^ (0 : ℕ)) = points := by
    rw [simplifyPoints, if_pos (by norm_num)]
  have h1 : (simplifyPoints points ((1 / 2 : ℚ) ^ (1 : ℕ))).length = 21 := by
    rw [simplifyPoints, if_neg (by norm_num), filterWithIndex_length, hlen]
    decide
  have h2 : (simplifyPoints points ((1 / 2 : ℚ) ^ (2 : ℕ))).length = 11 := by
    rw [simplifyPoints, if_neg (by norm_num), filterWithIndex_length, hlen]
    decide
  rw [generateLODs, hr3]
  simp only [List.map_cons, List.map_nil]
  refine ⟨?_, by decide, by decide, by decide⟩
  show [(simplifyPoints points ((1 / 2 : ℚ) ^ (0 : ℕ))).length,
    (simplifyPoints points ((1 / 2 : ℚ) ^ (1 : ℕ))).length,
    (simplifyPoints points ((1 / 2 : ℚ) ^ (2 : ℕ))).length] = [40, 21, 11]
  rw [h0, hlen, h1, h2]

/-- Witness for the amended C7 at the concrete 40-point footprint. -/
theorem c7_lod_counts_witness :
    (generateLODs pts40 3).map (fun r => r.quality) = ["high", "low", "low"] :=
  (c7_lod_counts pts40 (by decide)).2.1

/-! ## C8 — bevel settings for pillow and bubble -/

/-- C8: for pillow and bubble forms with positive height, bevel is enabled
with `bevelThickness = 0.3·h`, the core extrusion depth is reduced to
`max(0.001, h − 2·bevelThickness)` (so bevel plus core equals the nominal
height whenever the clamp does not engage, i.e. whenever
`h − 2·bevelThickness ≥ 0.001`), and for the bubble form the solver uses 12
bevel segments and 3 extrusion steps — in particular, bubble at height 1 has
bevelThickness 0.3 and core depth 0.4. -/
theorem c8_bevel_core_depth (form ty : String) (height : ℚ) (quality : String)
    (hform : form = "pillow" ∨ form = "bubble") (hh : 0 < height) :
    (extrudeSettingsOf form ty height quality).bevelEnabled = true ∧
    (extrudeSettingsOf form ty height quality).bevelThickness = some (height * (3 / 10)) ∧
    (extrudeSettingsOf form ty height quality).depth =
      max (1 / 1000) (height - 2 * (height * (3 / 10))) ∧
    (1 / 1000 ≤ height - 2 * (height * (3 / 10)) →
      (extrudeSettingsOf form ty height quality).depth + 2 * (height * (3 / 10)) = height) ∧
    (form = "bubble" → (extrudeSettingsOf form ty height quality).bevelSegments = some 12 ∧
      (extrudeSettingsOf form ty height quality).steps = 3) := by
  have hcond : form = "rounded" ∨ form = "pillow" ∨ form = "bubble" ∨ ty = "void" := by
    rcases hform with h | h
    · exact Or.inr (Or.inl h)
    · exact Or.inr (Or.inr (Or.inl h))
  have hsettings : extrudeSettingsOf form ty height quality =
      { depth := max (1 / 1000) (height - height * (3 / 10) * 2)
        curveSegments := 12 * qMult quality
        steps := if form = "bubble" then 3 else 1
        bevelEnabled := true
        bevelThickness := some (height * (3 / 10))
        bevelSize := some (height * (3 / 10))
        bevelSegments :=
          some (if form = "bubble" then 12 else if form = "pillow" then 8 else 2) } := by
    simp only [extrudeSettingsOf, hh, hcond, hform, if_true]
  rw [hsettings]
  refine ⟨rfl, rfl, by ring_nf, ?_, ?_⟩
  · intro hclamp
    show max (1 / 1000) (height - height * (3 / 10) * 2) + 2 * (height * (3 / 10)) = height
    rw [max_eq_right (by linarith)]
    ring
  · intro hb
    exact ⟨by rw [hb]; rfl, by rw [hb]; rfl⟩

/-- Witness for C8: bubble at height 1 gets bevelThickness 0.3, core depth
0.4, 12 bevel segments and 3 steps. -/
theorem c8_bevel_core_depth_witness :
    (extrudeSettingsOf "bubble" "solid" 1 "low").bevelEnabled = true ∧
    (extrudeSettingsOf "bubble" "solid" 1 "low").bevelThickness = some (3 / 10) ∧
    (extrudeSettingsOf "bubble" "solid" 1 "low").depth = 2 / 5 ∧
    (extrudeSettingsOf "bubble" "solid" 1 "low").bevelSegments = some 12 ∧
    (extrudeSettingsOf "bubble" "solid" 1 "low").steps = 3 := by
  obtain ⟨h1, h2, h3, _, h5⟩ :=
    c8_bevel_core_depth "bubble" "solid" 1 "low" (Or.inr rfl) (by norm_num)
  refine ⟨h1, ?_, ?_, (h5 rfl).1, (h5 rfl).2⟩
  · rw [h2]; norm_num
  · rw [h3]
    rw [max_eq_right (by norm_num)]
    norm_num

/-! ## C9 — the organic morph pass (worker script lines 18–42 and 150–154)

The morph pass genuinely computes with `Math.sin`, so this part of the model
lives over the reals. -/

/-- A 3D vertex with real coordinates. -/
structure Vec3R where
  x : ℝ
  y : ℝ
  z : ℝ

/-- Componentwise vector addition. -/
noncomputable def vadd (a b : Vec3R) : Vec3R := ⟨a.x + b.x, a.y + b.y, a.z + b.z⟩

/-- Componentwise vector subtraction (`THREE.Vector3.sub`). -/
noncomputable def vsub (a b : Vec3R) : Vec3R := ⟨a.x - b.x, a.y - b.y, a.z - b.z⟩

/-- Scalar multiple of a vector. -/
noncomputable def vsmul (c : ℝ) (a : Vec3R) : Vec3R := ⟨c * a.x, c * a.y, c * a.z⟩

/-- Euclidean length (`THREE.Vector3.length`). -/
noncomputable def vnorm (a : Vec3R) : ℝ := Real.sqrt (a.x ^ 2 + a.y ^ 2 + a.z ^ 2)

/-- Euclidean distance (`THREE.Vector3.distanceTo`). -/
noncomputable def vdist (a b : Vec3R) : ℝ := vnorm (vsub a b)

/-- `THREE.Vector3.normalize` divides by `length || 1`, so the zero vector is
left unchanged (which the if-guard below reproduces exactly). -/
noncomputable def vnormalize (a : Vec3R) : Vec3R :=
  haveI : Decidable (vnorm a = 0) := Classical.dec _
  if vnorm a = 0 then a else vsmul (vnorm a)⁻¹ a

/-- Center of the axis-aligned bounding box of the vertices
(`geometry.computeBoundingBox(); geometry.boundingBox.getCenter(center)`,
lines 22–23): per-axis midpoint of minimum and maximum; `THREE.Box3` returns
the zero vector for an empty vertex set. -/
noncomputable def bboxCenter (l : List Vec3R) : Vec3R :=
  match l with
  | [] => ⟨0, 0, 0⟩
  | v :: vs =>
    ⟨(vs.foldl (fun m w => min m w.x) v.x + vs.foldl (fun m w => max m w.x) v.x) / 2,
     (vs.foldl (fun m w => min m w.y) v.y + vs.foldl (fun m w => max m w.y) v.y) / 2,
     (vs.foldl (fun m w => min m w.z) v.z + vs.foldl (fun m w => max m w.z) v.z) / 2⟩

/-- Line 33: `inflation = Math.sin(distance * Math.PI) * intensity * 0.1`. -/
noncomputable def inflationOf (distance intensity : ℝ) : ℝ :=
  Real.sin (distance * Real.pi) * intensity * (1 / 10)

/-- Lines 25–38: one vertex of the morph loop — displace along the direction
from the bounding-box center by the inflation amount (the loop updates the
three coordinates of each vertex in place; the center is computed once before
the loop, so the in-place update is a `map`). -/
noncomputable def morphVertex (center : Vec3R) (intensity : ℝ) (v : Vec3R) : Vec3R :=
  vadd v (vsmul (inflationOf (vdist v center) intensity) (vnormalize (vsub v center)))

/-- Lines 18–42, `applyMorphTargets(geometry, form, intensity)`: only bubble
and pillow geometries are displaced; all other forms pass through. -/
noncomputable def applyMorphTargets (form : String) (intensity : ℝ)
    (positions : List Vec3R) : List Vec3R :=
  if form = "bubble" ∨ form = "pillow" then
    positions.map (morphVertex (bboxCenter positions) intensity)
  else positions

/-- Lines 150–154: the morph invocation after extrusion — intensity 1.5 for
bubble, 0.8 for pillow, nothing otherwise. -/
noncomputable def morphStage (form : String) (positions : List Vec3R) : List Vec3R :=
  if form = "bubble" then applyMorphTargets form (3 / 2) positions
  else if form = "pillow" then applyMorphTargets form (4 / 5) positions
  else positions

/-- C9: the morph pass displaces every vertex of a bubble (resp. pillow)
solid by direction-from-center × sin(distanceFromCenter × π) × intensity ×
0.1 with intensity 1.5 (resp. 0.8); extrusion and rounded meshes are left
unchanged by this pass; and the displacement magnitude
sin(d·π)·intensity·0.1 is strictly increasing in the distance d up to the
sin(π·d) peak at d = 1/2. -/
theorem c9_morph_pass (positions : List Vec3R) :
    morphStage "bubble" positions = positions.map (fun v =>
      vadd v (vsmul (Real.sin (vdist v (bboxCenter positions) * Real.pi) * (3 / 2) * (1 / 10))
        (vnormalize (vsub v (bboxCenter positions))))) ∧
    morphStage "pillow" positions = positions.map (fun v =>
      vadd v (vsmul (Real.sin (vdist v (bboxCenter positions) * Real.pi) * (4 / 5) * (1 / 10))
        (vnormalize (vsub v (bboxCenter positions))))) ∧
    morphStage "extrusion" positions = positions ∧
    morphStage "rounded" positions = positions ∧
    (∀ d1 d2 intensity : ℝ, 0 ≤ d1 → d1 < d2 → d2 ≤ 1 / 2 → 0 < intensity →
      inflationOf d1 intensity < inflationOf d2 intensity) := by
  refine ⟨?_, ?_, ?_, ?_, ?_⟩
  · rw [morphStage, if_pos rfl, applyMorphTargets, if_pos (Or.inl rfl)]
    rfl
  · rw [morphStage, if_neg (by decide), if_pos rfl, applyMorphTargets, if_pos (Or.inr rfl)]
    rfl
  · rw [morphStage, if_neg (by decide), if_neg (by decide)]
  · rw [morphStage, if_neg (by decide), if_neg (by decide)]
  · intro d1 d2 intensity h1 h2 h3 h4
    have hpi := Real.pi_pos
    have hsin : Real.sin (d1 * Real.pi) < Real.sin (d2 * Real.pi) := by
      apply Real.strictMonoOn_sin
      · refine Set.mem_Icc.mpr ⟨?_, ?_⟩
        · nlinarith
        · nlinarith
      · refine Set.mem_Icc.mpr ⟨?_, ?_⟩
        · nlinarith
        · nlinarith
      · exact mul_lt_mul_of_pos_right h2 hpi
    rw [inflationOf, inflationOf]
    have h10 : (0 : ℝ) < 1 / 10 := by norm_num
    exact mul_lt_mul_of_pos_right (mul_lt_mul_of_pos_right hsin h4) h10

/-- Witness for C9 at a concrete vertex list, distances and intensity. -/
theorem c9_morph_pass_witness :
    morphStage "extrusion" [⟨1, 2, 3⟩] = [⟨1, 2, 3⟩] ∧
    inflationOf 0 (3 / 2) < inflationOf (1 / 2) (3 / 2) :=
  ⟨(c9_morph_pass [⟨1, 2, 3⟩]).2.2.1,
   (c9_morph_pass []).2.2.2.2 0 (1 / 2) (3 / 2) (by norm_num) (by norm_num) (by norm_num)
     (by norm_num)⟩

end GeometryEngine
